import Mathlib

/-!
Verification development for the plcr-studio repository.

Shallow embedding of the two algorithmic cores:
* the AI provider fallback orchestrator (`src/lib/ai-providers/factory.ts`),
* the canvas annotation classifier / spatial relation resolver
  (`src/lib/annotationParser.ts`),
* the prompt confidence scorer (`calculateConfidence` in the semantic
  prompt builder).

Conventions used throughout:
* JavaScript numbers are embedded as rationals (`ℚ`); all arithmetic that
  the source performs (addition, multiplication, division, comparisons) is
  exact on the inputs considered.
* `Math.sqrt(d) < r` comparisons are embedded by the equivalent
  radicand comparison `0 < r ∧ d < r * r` (square root is monotone on
  nonnegative reals), so distances are carried as squared distances.
* fallible code (`throw`) is embedded with `Except String`.
-/

-- ===========================================================================
-- Provider layer: src/lib/ai-providers/factory.ts
-- ===========================================================================

/-- The provider type enum (`AIProviderType` in `types.ts`). -/
inductive AIProviderType
  | gemini
  | claude
  | openai
  | replicate
deriving DecidableEq, BEq, Repr

/-- String form of a provider type, as produced by template interpolation
of the TS string-literal union (`${e.provider}`). -/
def providerTypeStr : AIProviderType → String
  | .gemini => "gemini"
  | .claude => "claude"
  | .openai => "openai"
  | .replicate => "replicate"

/-- `AIProviderFactory.fallbackOrder`: the static default provider order. -/
def fallbackOrder : List AIProviderType :=
  [.gemini, .openai, .replicate]

/-- A recorded per-provider failure (`ProviderError` in `types.ts`,
as pushed by `executeWithFallback`). The source stores the caught `Error`
object; only its message is observable in the aggregate failure string. -/
structure ProviderError where
  provider : AIProviderType
  message : String
  canFallback : Bool
deriving DecidableEq, Repr

/-- `AIProviderFactory.getProviderFallbackChain`: preferred provider first
(when given), then the static order with the preferred one filtered out. -/
def getProviderFallbackChain (preferredProvider : Option AIProviderType) :
    List AIProviderType :=
  match preferredProvider with
  | none => fallbackOrder
  | some p => p :: fallbackOrder.filter (fun t => t ≠ p)

/-- The aggregate failure message built at the end of
`executeWithFallback` when every attempted provider failed. -/
def aggregateErrorMessage (errors : List ProviderError) : String :=
  "All providers failed. Errors:\n" ++
    String.intercalate "\n"
      (errors.map (fun e => "- " ++ providerTypeStr e.provider ++ ": " ++ e.message))

/-- The `for (const providerType of providers)` loop body of
`AIProviderFactory.executeWithFallback`, with the accumulated `errors`
array made explicit. `P` is the provider object type; `getProvider`
embeds the factory lookup, `isConfigured` the configuration probe and
`operation` the awaited callback (returning a value or throwing). -/
def fallbackLoop {P α : Type} (getProvider : AIProviderType → P)
    (isConfigured : P → Bool) (operation : P → Except String α) :
    List AIProviderType → List ProviderError → Except String α
  | [], errors => .error (aggregateErrorMessage errors)
  | providerType :: rest, errors =>
    let provider := getProvider providerType
    if isConfigured provider then
      match operation provider with
      | .ok v => .ok v
      | .error msg =>
        fallbackLoop getProvider isConfigured operation rest
          (errors ++ [⟨providerType, msg, true⟩])
    else
      fallbackLoop getProvider isConfigured operation rest errors

/-- `AIProviderFactory.executeWithFallback`: build the fallback chain for
the preferred provider and run the loop with an empty error accumulator. -/
def executeWithFallback {P α : Type} (getProvider : AIProviderType → P)
    (isConfigured : P → Bool) (preferredProvider : Option AIProviderType)
    (operation : P → Except String α) : Except String α :=
  fallbackLoop getProvider isConfigured operation
    (getProviderFallbackChain preferredProvider) []

/-- `AIProviderFactory.getConfiguredProviders`: all provider instances,
in the fixed enumeration order, filtered by `isConfigured()`. -/
def getConfiguredProviders {P : Type} (getProvider : AIProviderType → P)
    (isConfigured : P → Bool) : List P :=
  let allTypes : List AIProviderType := [.gemini, .claude, .openai, .replicate]
  (allTypes.map getProvider).filter isConfigured

/-- `AIProviderFactory.getDefaultProvider`. `envDefault` embeds
`process.env.DEFAULT_AI_PROVIDER` (the `|| 'gemini'` default is applied
here as in the source). -/
def getDefaultProvider {P : Type} (getProvider : AIProviderType → P)
    (isConfigured : P → Bool) (envDefault : Option AIProviderType) :
    Except String P :=
  let defaultType := envDefault.getD .gemini
  let provider := getProvider defaultType
  if isConfigured provider then .ok provider
  else
    match getConfiguredProviders getProvider isConfigured with
    | [] => .error "No AI providers are configured. Please set at least one API key in your environment variables."
    | p :: _ => .ok p

-- ===========================================================================
-- Data model: src/types/semanticPrompt.ts (and the slice of the Excalidraw
-- element type that src/lib/annotationParser.ts reads)
-- ===========================================================================

/-- The element kinds the parser distinguishes. The source matches on
`element.type` strings; kinds it never tests for (line, diamond, freedraw,
...) are represented by `other` and fall through to the default branch. -/
inductive ElementType
  | arrow
  | text
  | ellipse
  | rectangle
  | image
  | frame
  | other
deriving DecidableEq, BEq, Repr

/-- A 2D point with rational coordinates. -/
structure Point where
  x : ℚ
  y : ℚ
deriving DecidableEq, Repr

/-- The slice of `ExcalidrawElement` read by the parser: geometry, text
content, stroke colour and binding information. `boundElements` keeps the
ids of the bound-element records; `startBinding`/`endBinding` keep the
`elementId` of the arrow bindings when present. -/
structure ExcalidrawElement where
  id : String
  type : ElementType
  x : ℚ := 0
  y : ℚ := 0
  width : ℚ := 0
  height : ℚ := 0
  text : String := ""
  strokeColor : String := ""
  boundElements : List String := []
  startBinding : Option String := none
  endBinding : Option String := none
deriving DecidableEq, Repr

/-- `AnnotationRole` from `types/semanticPrompt.ts`. -/
inductive AnnotationRole
  | placement_indicator
  | emphasis
  | instruction
  | measurement
  | reference
  | constraint
  | unknown
deriving DecidableEq, BEq, Repr

/-- `SpatialRelation` from `types/semanticPrompt.ts`. -/
inductive SpatialRelation
  | points_to
  | encircles
  | adjacent_to
  | overlaps
  | near
  | above
  | below
  | left_of
  | right_of
deriving DecidableEq, BEq, Repr

/-- The `metadata` record the parser attaches to an annotation. The
source stores `size: Math.sqrt(width ** 2 + height ** 2)`; we store the
radicand `sizeSq` (the value is never compared or read by the code under
study, so the monotone encoding is unobservable). -/
structure AnnotMetadata where
  color : String
  sizeSq : ℚ
deriving DecidableEq, Repr

/-- `SemanticAnnotation` from `types/semanticPrompt.ts` (the fields the
parser writes; `isHighlighted` is never set by the parser and is omitted). -/
structure SemanticAnnot where
  id : String
  type : ElementType
  role : AnnotationRole
  content : Option String := none
  position : Point
  targetImageId : Option String := none
  confidence : ℚ
  metadata : AnnotMetadata
deriving DecidableEq, Repr

/-- `AnnotationImageRelation` from `types/semanticPrompt.ts`. -/
structure AnnotationImageRelation where
  annotationId : String
  imageId : String
  relation : SpatialRelation
  confidence : ℚ
deriving DecidableEq, Repr

/-- `ProductMetadata` (the slice relevant here: the scorer only tests its
presence, so representative optional fields suffice). -/
structure ProductMetadata where
  category : Option String := none
  style : Option String := none
  materials : List String := []
deriving DecidableEq, Repr

/-- `EnhancedImageMetadata`: the fields read by the parser
(`id`, `excalidrawElementId`) plus the optional product metadata tested
by the confidence scorer. -/
structure EnhancedImageMetadata where
  id : String
  excalidrawElementId : String
  productMetadata : Option ProductMetadata := none
deriving DecidableEq, Repr

/-- `LightingPreset` from `types/semanticPrompt.ts`. -/
structure LightingPreset where
  id : String := ""
  name : String := ""
  description : String := ""
  prompt : String := ""
  keywords : List String := []
deriving DecidableEq, Repr

/-- `StylePreset` from `types/semanticPrompt.ts` (category collapsed to a
string; it is never read by the code under study). -/
structure StylePreset where
  id : String := ""
  name : String := ""
  description : String := ""
  prompt : String := ""
  keywords : List String := []
  category : String := ""
deriving DecidableEq, Repr

-- ===========================================================================
-- String helpers: JS regex `.test` on the simple patterns the classifier
-- uses (alternations of literals, `\d+\s*(unit)` and `x\d+|\d+x\d+`)
-- ===========================================================================

/-- Decide whether `pat` occurs at the start of `cs` (literal match). -/
def startsWithChars : List Char → List Char → Bool
  | [], _ => true
  | _ :: _, [] => false
  | p :: ps, c :: cs => p == c && startsWithChars ps cs

/-- Decide whether `pat` occurs somewhere in `cs` (literal match at any
position), i.e. `new RegExp(literal).test(s)` for a metacharacter-free
literal. -/
def occursIn (pat : List Char) : List Char → Bool
  | [] => pat.isEmpty
  | c :: cs => startsWithChars pat (c :: cs) || occursIn pat cs

/-- JS `String.prototype.toLowerCase` (character-wise lowering; the
inputs considered are ASCII). -/
def toLowerCase (s : String) : String := ⟨s.data.map Char.toLower⟩

/-- `regex.test(s)` for an alternation of plain literals `a|b|...`. -/
def regexAltTest (alts : List String) (s : String) : Bool :=
  alts.any (fun a => occursIn a.data s.data)

/-- JS `\d`: an ASCII decimal digit. -/
def isDigitChar (c : Char) : Bool := '0' ≤ c && c ≤ '9'

/-- JS `\s` on the inputs considered: ASCII whitespace. -/
def isSpaceChar (c : Char) : Bool :=
  c == ' ' || c == '\t' || c == '\n' || c == '\x0d' || c == '\x0b' || c == '\x0c'

/-- Does `cs` start with one of the measurement units
`cm|mm|m|in|ft|px`? -/
def startsWithUnit (cs : List Char) : Bool :=
  (["cm", "mm", "m", "in", "ft", "px"] : List String).any
    (fun u => startsWithChars u.data cs)

/-- Head of the list is a digit. -/
def headIsDigit : List Char → Bool
  | [] => false
  | c :: _ => isDigitChar c

/-- `/\d+\s*(cm|mm|m|in|ft|px)/.test(s)`: at some position, one or more
digits, optional whitespace, then a unit. Taking the maximal digit run is
equivalent to the regex (no unit starts with a digit), and the scan over
every start position covers shorter runs. -/
def digitUnitTest (s : String) : Bool := go s.data
where
  go : List Char → Bool
    | [] => false
    | c :: cs =>
      (isDigitChar c && startsWithUnit ((cs.dropWhile isDigitChar).dropWhile isSpaceChar))
        || go cs

/-- `/x\d+|\d+x\d+/.test(s)`: an `x` followed by a digit, or a digit run
followed by `x` and a digit. -/
def xNumTest (s : String) : Bool := go s.data
where
  go : List Char → Bool
    | [] => false
    | c :: cs =>
      (c == 'x' && headIsDigit cs)
        || (isDigitChar c &&
              (match cs.dropWhile isDigitChar with
                | 'x' :: r => headIsDigit r
                | _ => false))
        || go cs

-- ===========================================================================
-- Annotation classification: classifyAnnotationRole
-- ===========================================================================

/-- The `instructionPatterns` regex list (each regex an alternation of
literals). -/
def instructionPatterns : List (List String) :=
  [["place", "put", "position", "move"],
   ["should", "must", "need"],
   ["here", "there"],
   ["center", "left", "right", "top", "bottom"]]

/-- `instructionPatterns.some(p => p.test(text))`. -/
def instructionTest (s : String) : Bool :=
  instructionPatterns.any (fun p => regexAltTest p s)

/-- `measurementPatterns.some(p => p.test(text))`: the digit-unit regex,
`/size|dimension|scale/`, and `/x\d+|\d+x\d+/`. -/
def measurementTest (s : String) : Bool :=
  digitUnitTest s || regexAltTest ["size", "dimension", "scale"] s || xNumTest s

/-- The `constraintPatterns` regex list. -/
def constraintPatterns : List (List String) :=
  [["not", "don\x27t", "avoid", "never"],
   ["within", "inside", "outside"],
   ["limit", "boundary", "edge"]]

/-- `constraintPatterns.some(p => p.test(text))`. -/
def constraintTest (s : String) : Bool :=
  constraintPatterns.any (fun p => regexAltTest p s)

/-- Result record of `classifyAnnotationRole` (`{role, confidence}`). -/
structure RoleClassification where
  role : AnnotationRole
  confidence : ℚ
deriving DecidableEq, Repr

/-- `classifyAnnotationRole` from `src/lib/annotationParser.ts`, branch
for branch: arrows, ellipses, text (ordered pattern groups, then the
short-text fallback), rectangles by area, and the unknown default. -/
def classifyAnnotationRole (element : ExcalidrawElement) : RoleClassification :=
  if element.type = .arrow then ⟨.placement_indicator, 0.9⟩
  else if element.type = .ellipse then ⟨.emphasis, 0.85⟩
  else if element.type = .text then
    let text := toLowerCase element.text
    if instructionTest text then ⟨.instruction, 0.9⟩
    else if measurementTest text then ⟨.measurement, 0.85⟩
    else if constraintTest text then ⟨.constraint, 0.8⟩
    else if text.length < 20 then ⟨.reference, 0.6⟩
    else ⟨.instruction, 0.5⟩
  else if element.type = .rectangle then
    if 100000 < element.width * element.height then ⟨.constraint, 0.7⟩
    else ⟨.emphasis, 0.6⟩
  else ⟨.unknown, 0.3⟩

-- ===========================================================================
-- Geometry helpers
-- ===========================================================================

/-- `Math.min` (explicit definition so that terms reduce by computation). -/
def mathMin (a b : ℚ) : ℚ := if a ≤ b then a else b

/-- `Math.max` (explicit definition so that terms reduce by computation). -/
def mathMax (a b : ℚ) : ℚ := if b ≤ a then a else b

/-- Centre of an element, `(x + width / 2, y + height / 2)`. -/
def elementCenter (el : ExcalidrawElement) : Point :=
  ⟨el.x + el.width / 2, el.y + el.height / 2⟩

/-- Squared Euclidean distance between two points. The source computes
`Math.sqrt` of this value; every use compares the result against a bound,
so the radicand is carried instead (see the header note). -/
def distSq (p q : Point) : ℚ :=
  (p.x - q.x) ^ 2 + (p.y - q.y) ^ 2

/-- `Real.sqrt d < r` decided on the radicand, for `d ≥ 0`:
`sqrt d < r ↔ 0 < r ∧ d < r²`. Embeds `Math.sqrt(d) < r`. -/
def sqrtLt (d r : ℚ) : Bool := 0 < r && d < r * r

/-- A rectangle `{x, y, width, height}`. -/
structure Rect where
  x : ℚ
  y : ℚ
  width : ℚ
  height : ℚ
deriving DecidableEq, Repr

/-- `isPointInRect` from `src/lib/annotationParser.ts` (inclusive bounds). -/
def isPointInRect (point : Point) (rect : Rect) : Bool :=
  rect.x ≤ point.x && point.x ≤ rect.x + rect.width &&
    rect.y ≤ point.y && point.y ≤ rect.y + rect.height

/-- `calculateOverlap`: overlap area over the smaller of the two element
areas, `0` when the boxes do not overlap. (When the intersection is
nonempty both areas are positive, so the division is total here.) -/
def calculateOverlap (el1 el2 : ExcalidrawElement) : ℚ :=
  let x1 := mathMax el1.x el2.x
  let y1 := mathMax el1.y el2.y
  let x2 := mathMin (el1.x + el1.width) (el2.x + el2.width)
  let y2 := mathMin (el1.y + el1.height) (el2.y + el2.height)
  if x2 ≤ x1 ∨ y2 ≤ y1 then 0
  else
    let overlapArea := (x2 - x1) * (y2 - y1)
    let el1Area := el1.width * el1.height
    let el2Area := el2.width * el2.height
    overlapArea / mathMin el1Area el2Area

-- ===========================================================================
-- Nearest image search: findNearestImage
-- ===========================================================================

/-- The `for (const image of images)` loop of `findNearestImage`.
`acc` carries the current `(nearestImage, minDistance)` pair with the
squared distance; `none` encodes the initial `minDistance = Infinity` /
`nearestImage = undefined` state. The source condition
`distance < minDistance && distance < 500` becomes the corresponding
comparison of radicands (`500² = 250000`). -/
def nearestLoop (c : Point) (allElements : List ExcalidrawElement) :
    List EnhancedImageMetadata → Option (EnhancedImageMetadata × ℚ) →
    Option (EnhancedImageMetadata × ℚ)
  | [], acc => acc
  | image :: rest, acc =>
    match allElements.find? (fun el => el.id = image.excalidrawElementId) with
    | none => nearestLoop c allElements rest acc
    | some imageElement =>
      let d := distSq c (elementCenter imageElement)
      let closer := match acc with
        | none => true
        | some pr => decide (d < pr.2)
      if closer && decide (d < 250000) then
        nearestLoop c allElements rest (some (image, d))
      else
        nearestLoop c allElements rest acc

/-- `findNearestImage` from `src/lib/annotationParser.ts`. -/
def findNearestImage (element : ExcalidrawElement)
    (images : List EnhancedImageMetadata)
    (allElements : List ExcalidrawElement) : Option String :=
  (nearestLoop (elementCenter element) allElements images none).map
    (fun pr => pr.1.id)

-- ===========================================================================
-- Binding resolution and parsing: findBoundImage, parseAnnotations
-- ===========================================================================

/-- `findBoundImage`: first a bound-elements lookup, then (for arrows)
the start/end bindings, then the nearest-image fallback. -/
def findBoundImage (element : ExcalidrawElement)
    (images : List EnhancedImageMetadata)
    (allElements : List ExcalidrawElement) : Option String :=
  let viaBound := element.boundElements.findSome?
    (fun boundId =>
      (images.find? (fun img => img.excalidrawElementId = boundId)).map
        (fun img => img.id))
  match viaBound with
  | some imgId => some imgId
  | none =>
    let viaArrow :=
      if element.type = .arrow then
        ([element.startBinding, element.endBinding] : List (Option String)).findSome?
          (fun binding =>
            match binding with
            | none => none
            | some elementId =>
              (images.find? (fun img => img.excalidrawElementId = elementId)).map
                (fun img => img.id))
      else none
    match viaArrow with
    | some imgId => some imgId
    | none => findNearestImage element images allElements

/-- `parseAnnotations`: filter out image and frame elements, classify the
rest and build the `SemanticAnnotation` records. -/
def parseAnnotations (elements : List ExcalidrawElement)
    (images : List EnhancedImageMetadata) : List SemanticAnnot :=
  let annotationElements :=
    elements.filter (fun el => !(el.type == .image) && !(el.type == .frame))
  annotationElements.map (fun element =>
    let rc := classifyAnnotationRole element
    { id := element.id
      type := element.type
      role := rc.role
      position := elementCenter element
      confidence := rc.confidence
      metadata := ⟨element.strokeColor, element.width ^ 2 + element.height ^ 2⟩
      content := if element.type = .text then some element.text else none
      targetImageId := findBoundImage element images elements })

-- ===========================================================================
-- Spatial relation resolution: determineSpatialRelation
-- ===========================================================================

/-- `determineSpatialRelation` from `src/lib/annotationParser.ts`.

The directional branch computes `angle = atan2(dy, dx) * 180 / π` and
tests it against the ranges `[-45, 45)`, `[45, 135)`,
`[135, 180] ∪ (-180, -135)` and else; those tests are embedded by their
exact rational characterisations in terms of `dx`, `dy`
(`atan2(0, 0) = 0` falls in the first range, as in JS). -/
def determineSpatialRelation (ann : SemanticAnnot)
    (imageMetadata : EnhancedImageMetadata)
    (annotationElement imageElement : ExcalidrawElement) :
    SpatialRelation × ℚ :=
  let pointsTo :=
    if ann.type = .arrow then
      let arrowEnd : Point :=
        ⟨annotationElement.x + annotationElement.width,
         annotationElement.y + annotationElement.height⟩
      isPointInRect arrowEnd
        ⟨imageElement.x, imageElement.y, imageElement.width, imageElement.height⟩
    else false
  if pointsTo then (.points_to, 0.95)
  else
    let encirclesHit :=
      if ann.type = .ellipse then
        let annotationCenter := ann.position
        let imageCenter := elementCenter imageElement
        let dSq := distSq annotationCenter imageCenter
        let annotationRadius := mathMax annotationElement.width annotationElement.height / 2
        let imageRadius := mathMax imageElement.width imageElement.height / 2
        sqrtLt dSq annotationRadius && decide (imageRadius < annotationRadius)
      else false
    if encirclesHit then (.encircles, 0.9)
    else
      let overlap := calculateOverlap annotationElement imageElement
      if 0.1 < overlap then (.overlaps, 0.8)
      else
        let imageCenter := elementCenter imageElement
        let dx := ann.position.x - imageCenter.x
        let dy := ann.position.y - imageCenter.y
        let dSq := dx ^ 2 + dy ^ 2
        if sqrtLt dSq 200 then
          if (0 < dx && -dx ≤ dy && dy < dx) || (dx == 0 && dy == 0) then
            (.right_of, 0.7)
          else if 0 < dy && -dy < dx && dx ≤ dy then (.below, 0.7)
          else if dx < 0 && dx < dy && dy ≤ -dx then (.left_of, 0.7)
          else (.above, 0.7)
        else (.near, 0.5)

-- ===========================================================================
-- Relation analysis: analyzeAnnotationRelations
-- ===========================================================================

/-- Body of the `for (const annotation of annotations)` loop of
`analyzeAnnotationRelations`: the relations contributed by one
annotation. Bound annotations contribute their single resolved relation;
unbound annotations contribute one relation per image whose computed
confidence exceeds 0.5. -/
def relationsForAnnot (ann : SemanticAnnot)
    (images : List EnhancedImageMetadata)
    (elements : List ExcalidrawElement) : List AnnotationImageRelation :=
  match ann.targetImageId with
  | some targetId =>
    match images.find? (fun img => img.id = targetId) with
    | none => []
    | some image =>
      match elements.find? (fun el => el.id = ann.id),
            elements.find? (fun el => el.id = image.excalidrawElementId) with
      | some annotationElement, some imageElement =>
        let rc := determineSpatialRelation ann image annotationElement imageElement
        [⟨ann.id, image.id, rc.1, rc.2⟩]
      | _, _ => []
  | none =>
    match elements.find? (fun el => el.id = ann.id) with
    | none => []
    | some annotationElement =>
      images.filterMap (fun image =>
        match elements.find? (fun el => el.id = image.excalidrawElementId) with
        | none => none
        | some imageElement =>
          let rc := determineSpatialRelation ann image annotationElement imageElement
          if 0.5 < rc.2 then some ⟨ann.id, image.id, rc.1, rc.2⟩
          else none)

/-- `analyzeAnnotationRelations`: concatenate the per-annotation
contributions in order. -/
def analyzeAnnotationRelations (annotations : List SemanticAnnot)
    (images : List EnhancedImageMetadata)
    (elements : List ExcalidrawElement) : List AnnotationImageRelation :=
  annotations.flatMap (fun ann => relationsForAnnot ann images elements)

-- ===========================================================================
-- High-level API: extractSemanticAnnotations, annotationsToText
-- ===========================================================================

/-- `extractSemanticAnnotations`: parse, then analyse. -/
def extractSemanticAnnotations (elements : List ExcalidrawElement)
    (images : List EnhancedImageMetadata) :
    List SemanticAnnot × List AnnotationImageRelation :=
  let annotations := parseAnnotations elements images
  (annotations, analyzeAnnotationRelations annotations images elements)

/-- JS truthiness of the optional `content` string (an empty string is
falsy). -/
def contentTruthy : Option String → Bool
  | none => false
  | some s => s ≠ ""

/-- Replace each underscore by a space (`relation.replace(/_/g, ' ')`). -/
def underscoresToSpaces (s : String) : String :=
  s.map (fun c => if c = '_' then ' ' else c)

/-- String form of a spatial relation (the TS value is the string
itself). -/
def spatialRelationStr : SpatialRelation → String
  | .points_to => "points_to"
  | .encircles => "encircles"
  | .adjacent_to => "adjacent_to"
  | .overlaps => "overlaps"
  | .near => "near"
  | .above => "above"
  | .below => "below"
  | .left_of => "left_of"
  | .right_of => "right_of"

/-- The description line contributed by one annotation in
`annotationsToText` (the if/else-if cascade; `none` when no branch
applies). -/
def annotationLine (ann : SemanticAnnot)
    (relations : List AnnotationImageRelation) : Option String :=
  let relatedRelations := relations.filter (fun r => r.annotationId = ann.id)
  if ann.role = .instruction ∧ contentTruthy ann.content then
    some ("User instruction: \"" ++ ann.content.getD "" ++ "\"")
  else if ann.role = .placement_indicator ∧ 0 < relatedRelations.length then
    match relatedRelations with
    | [] => none
    | relation :: _ =>
      some ("Placement arrow " ++ underscoresToSpaces (spatialRelationStr relation.relation)
        ++ " product")
  else if ann.role = .emphasis ∧ 0 < relatedRelations.length then
    some "Area of emphasis marked on image"
  else if ann.role = .measurement ∧ contentTruthy ann.content then
    some ("Measurement note: \"" ++ ann.content.getD "" ++ "\"")
  else if ann.role = .constraint ∧ contentTruthy ann.content then
    some ("Constraint: \"" ++ ann.content.getD "" ++ "\"")
  else none

/-- `annotationsToText`: collect the description lines and join them with
newlines. -/
def annotationsToText (annotations : List SemanticAnnot)
    (relations : List AnnotationImageRelation) : String :=
  String.intercalate "\n"
    (annotations.filterMap (fun ann => annotationLine ann relations))

-- ===========================================================================
-- Prompt confidence scorer: calculateConfidence (semantic prompt builder)
-- ===========================================================================

/-- The template variable map (string keyed); `calculateConfidence`
receives it but never reads it. -/
def PromptVariables : Type := List (String × String)

/-- `PromptBuilderInput`, restricted to the fields `calculateConfidence`
consults (the remaining fields of the source interface are never read by
the scorer). -/
structure PromptBuilderInput where
  userDescription : String := ""
  annotations : Option (List SemanticAnnot) := none
  productImages : Option (List EnhancedImageMetadata) := none
  lightingPreset : Option LightingPreset := none
  stylePreset : Option StylePreset := none
deriving DecidableEq, Repr

/-- `calculateConfidence` from the semantic prompt builder: a 0.5 base,
fixed increments for description length, annotations, product metadata
and the two presets, clamped by `Math.min(score, 1.0)`.
(The truthiness guard `input.userDescription && ...` of the source is
subsumed by the length test: an empty string has length 0.) -/
def calculateConfidence (input : PromptBuilderInput)
    (vars : PromptVariables) : ℚ :=
  let score0 : ℚ := 0.5
  let score1 := if 10 < input.userDescription.length then score0 + 0.2 else score0
  let score2 := match input.annotations with
    | some annotations => if 0 < annotations.length then score1 + 0.1 else score1
    | none => score1
  let score3 := match input.productImages with
    | some productImages =>
      if productImages.any (fun p => p.productMetadata.isSome) then score2 + 0.1
      else score2
    | none => score2
  let score4 := if input.lightingPreset.isSome then score3 + 0.05 else score3
  let score5 := if input.stylePreset.isSome then score4 + 0.05 else score4
  mathMin score5 1

-- ===========================================================================
-- Theorems: provider fallback orchestrator (claims C1 - C4)
-- ===========================================================================

/-- A configuration map for the scenario of claim C1: gemini unconfigured,
openai and replicate configured. The provider object type is taken to be
`AIProviderType` itself with `getProvider = id`. -/
def exampleCfg : AIProviderType → Bool := fun t => t == .openai || t == .replicate

/-- The operation of the scenario of claim C1: openai fails, replicate
succeeds. -/
def exampleOp : AIProviderType → Except String String := fun t =>
  match t with
  | .openai => Except.error "B failed"
  | .replicate => Except.ok "C result"
  | _ => Except.error "unused"

/-- Claim C1: `executeWithFallback` iterates the chain in order; a provider
whose `isConfigured()` is false is skipped silently with no failure recorded;
the first successful operation returns immediately with no further provider
tried; a failing operation has its failure recorded (provider identity plus
message) and iteration continues. In the concrete scenario
[gemini unconfigured, openai configured-failing, replicate
configured-succeeding] with the default order, the call skips gemini, attempts
openai recording its failure, attempts replicate and returns its result. -/
theorem executeWithFallback_inOrder_C1 :
    (∀ (P α : Type) (getProvider : AIProviderType → P) (isConfigured : P → Bool)
        (operation : P → Except String α) (t : AIProviderType)
        (rest : List AIProviderType) (errors : List ProviderError),
      isConfigured (getProvider t) = false →
        fallbackLoop getProvider isConfigured operation (t :: rest) errors =
          fallbackLoop getProvider isConfigured operation rest errors)
  ∧ (∀ (P α : Type) (getProvider : AIProviderType → P) (isConfigured : P → Bool)
        (operation : P → Except String α) (t : AIProviderType)
        (rest : List AIProviderType) (errors : List ProviderError) (v : α),
      isConfigured (getProvider t) = true →
      operation (getProvider t) = .ok v →
        fallbackLoop getProvider isConfigured operation (t :: rest) errors = .ok v)
  ∧ (∀ (P α : Type) (getProvider : AIProviderType → P) (isConfigured : P → Bool)
        (operation : P → Except String α) (t : AIProviderType)
        (rest : List AIProviderType) (errors : List ProviderError) (msg : String),
      isConfigured (getProvider t) = true →
      operation (getProvider t) = .error msg →
        fallbackLoop getProvider isConfigured operation (t :: rest) errors =
          fallbackLoop getProvider isConfigured operation rest
            (errors ++ [⟨t, msg, true⟩]))
  ∧ executeWithFallback id exampleCfg none exampleOp =
      fallbackLoop id exampleCfg exampleOp [.replicate] [⟨.openai, "B failed", true⟩]
  ∧ executeWithFallback id exampleCfg none exampleOp = .ok "C result" := by
  refine ⟨?_, ?_, ?_, rfl, rfl⟩
  · intro P α getProvider isConfigured operation t rest errors h
    simp [fallbackLoop, h]
  · intro P α getProvider isConfigured operation t rest errors v h hop
    simp [fallbackLoop, h, hop]
  · intro P α getProvider isConfigured operation t rest errors msg h hop
    simp [fallbackLoop, h, hop]

/-- Witness for C1: the skip clause applied to the concrete scenario
(gemini unconfigured is dropped from the front of the chain without a
recorded failure). -/
theorem executeWithFallback_inOrder_C1_witness :
    fallbackLoop (P := AIProviderType) id exampleCfg exampleOp
        [.gemini, .openai, .replicate] [] =
      fallbackLoop id exampleCfg exampleOp [.openai, .replicate] [] :=
  executeWithFallback_inOrder_C1.1 AIProviderType String id exampleCfg exampleOp
    .gemini [.openai, .replicate] [] rfl

/-- Claim C2: the fallback chain is the preferred provider followed by the
static default order with the preferred provider removed (relative order
kept, no duplicate); with no preferred provider the chain is the default
order itself; preferring replicate over the default order
[gemini, openai, replicate] yields [replicate, gemini, openai]. -/
theorem getProviderFallbackChain_C2 :
    getProviderFallbackChain none = fallbackOrder
  ∧ (∀ p, getProviderFallbackChain (some p) =
      p :: fallbackOrder.filter (fun t => t ≠ p))
  ∧ (∀ p, p ∉ (getProviderFallbackChain (some p)).tail)
  ∧ (∀ p, (getProviderFallbackChain (some p)).head? = some p)
  ∧ getProviderFallbackChain (some .replicate) = [.replicate, .gemini, .openai] := by
  refine ⟨rfl, fun p => rfl, fun p => ?_, fun p => rfl, rfl⟩
  simp [getProviderFallbackChain]

/-- All-providers-fail run of the loop: when every configured provider in
the remaining chain fails (with message `em t`), the loop ends with the
aggregate error collecting the already recorded failures followed by one
record per remaining configured provider, in chain order. -/
theorem fallbackLoop_all_fail {P α : Type} (getProvider : AIProviderType → P)
    (isConfigured : P → Bool) (operation : P → Except String α)
    (em : AIProviderType → String) :
    ∀ (cs : List AIProviderType) (errors : List ProviderError),
      (∀ t ∈ cs, isConfigured (getProvider t) = true →
        operation (getProvider t) = .error (em t)) →
      fallbackLoop getProvider isConfigured operation cs errors =
        .error (aggregateErrorMessage
          (errors ++ (cs.filter (fun t => isConfigured (getProvider t))).map
            (fun t => ⟨t, em t, true⟩))) := by
  intro cs
  induction cs with
  | nil => intro errors _; simp [fallbackLoop]
  | cons t cs ih =>
    intro errors h
    by_cases hc : isConfigured (getProvider t) = true
    · have hop := h t (by simp) hc
      rw [show fallbackLoop getProvider isConfigured operation (t :: cs) errors =
            fallbackLoop getProvider isConfigured operation cs
              (errors ++ [⟨t, em t, true⟩]) by simp [fallbackLoop, hc, hop]]
      rw [ih _ (fun x hx hcx => h x (by simp [hx]) hcx)]
      simp [List.filter_cons, hc]
    · have hc' : isConfigured (getProvider t) = false := by simpa using hc
      rw [show fallbackLoop getProvider isConfigured operation (t :: cs) errors =
            fallbackLoop getProvider isConfigured operation cs errors by
          simp [fallbackLoop, hc']]
      rw [ih _ (fun x hx hcx => h x (by simp [hx]) hcx)]
      simp [List.filter_cons, hc']

/-- Claim C3: when the chain is exhausted with no success, the call fails
with the aggregate error whose message is exactly
"All providers failed. Errors:" followed by one line
"- provider: message" per attempted (configured) provider, in attempted
order. -/
theorem executeWithFallback_aggregate_C3 {P α : Type}
    (getProvider : AIProviderType → P) (isConfigured : P → Bool)
    (operation : P → Except String α) (em : AIProviderType → String)
    (preferredProvider : Option AIProviderType)
    (h : ∀ t ∈ getProviderFallbackChain preferredProvider,
        isConfigured (getProvider t) = true →
        operation (getProvider t) = .error (em t)) :
    executeWithFallback getProvider isConfigured preferredProvider operation =
      .error ("All providers failed. Errors:\n" ++
        String.intercalate "\n"
          (((getProviderFallbackChain preferredProvider).filter
              (fun t => isConfigured (getProvider t))).map
            (fun t => "- " ++ providerTypeStr t ++ ": " ++ em t))) := by
  rw [executeWithFallback,
    fallbackLoop_all_fail getProvider isConfigured operation em _ _ h]
  simp [aggregateErrorMessage, List.map_map, Function.comp_def]

/-- Witness for C3: three configured providers all failing with "boom"
produce the three-line aggregate message in chain order. -/
theorem executeWithFallback_aggregate_C3_witness :
    executeWithFallback (P := AIProviderType) (α := String) id (fun _ => true) none
        (fun _ => Except.error "boom") =
      .error "All providers failed. Errors:\n- gemini: boom\n- openai: boom\n- replicate: boom" := by
  rw [executeWithFallback_aggregate_C3 id (fun _ => true)
    (fun _ => Except.error "boom") (fun _ => "boom") none
    (fun t _ _ => rfl)]
  rfl

/-- Skip-everything run of the loop: when no provider in the remaining
chain is configured, the loop falls through recording nothing. -/
theorem fallbackLoop_none_configured {P α : Type}
    (getProvider : AIProviderType → P) (isConfigured : P → Bool)
    (operation : P → Except String α) :
    ∀ (cs : List AIProviderType) (errors : List ProviderError),
      (∀ t ∈ cs, isConfigured (getProvider t) = false) →
      fallbackLoop getProvider isConfigured operation cs errors =
        .error (aggregateErrorMessage errors) := by
  intro cs
  induction cs with
  | nil => intro errors _; simp [fallbackLoop]
  | cons t cs ih =>
    intro errors h
    rw [show fallbackLoop getProvider isConfigured operation (t :: cs) errors =
          fallbackLoop getProvider isConfigured operation cs errors by
        simp [fallbackLoop, h t (by simp)]]
    exact ih _ (fun x hx => h x (by simp [hx]))

/-- Counterexample to claim C4: with no provider configured at all, the
fallback-orchestrated call does NOT fail with the distinct
configuration-error message instructing which environment variables to
set; it fails with the generic aggregate-failure message carrying zero
per-provider lines. -/
theorem executeWithFallback_noconfig_C4_counterexample :
    executeWithFallback (P := AIProviderType) (α := String) id (fun _ => false)
        none (fun _ => Except.error "unreachable") =
      .error "All providers failed. Errors:\n"
  ∧ ("All providers failed. Errors:\n" : String) ≠
      "No AI providers are configured. Please set at least one API key in your environment variables." :=
  ⟨rfl, by decide⟩

/-- Claim C4 as amended: when no provider at all is configured, the
fallback-orchestrated `executeWithFallback` fails with the aggregate
message carrying zero per-provider lines, while the distinct
configuration-error message instructing which environment variables to
set is produced (without any retry) by `getDefaultProvider`, the direct
provider lookup path. -/
theorem noProvidersConfigured_C4 :
    (∀ (P α : Type) (getProvider : AIProviderType → P) (isConfigured : P → Bool)
        (operation : P → Except String α)
        (preferredProvider : Option AIProviderType),
      (∀ t, isConfigured (getProvider t) = false) →
      executeWithFallback getProvider isConfigured preferredProvider operation =
        .error "All providers failed. Errors:\n")
  ∧ (∀ (P : Type) (getProvider : AIProviderType → P) (isConfigured : P → Bool)
        (envDefault : Option AIProviderType),
      (∀ t, isConfigured (getProvider t) = false) →
      getDefaultProvider getProvider isConfigured envDefault =
        .error "No AI providers are configured. Please set at least one API key in your environment variables.") := by
  constructor
  · intro P α getProvider isConfigured operation preferredProvider h
    rw [executeWithFallback,
      fallbackLoop_none_configured getProvider isConfigured operation _ []
        (fun t _ => h t)]
    rfl
  · intro P getProvider isConfigured envDefault h
    simp [getDefaultProvider, getConfiguredProviders, h]

/-- Witness for the amended C4: the concrete nothing-configured factory
produces both messages on the respective paths. -/
theorem noProvidersConfigured_C4_witness :
    executeWithFallback (P := AIProviderType) (α := String) id (fun _ => false)
        (some .openai) (fun _ => Except.error "unreachable") =
      .error "All providers failed. Errors:\n"
  ∧ getDefaultProvider (P := AIProviderType) id (fun _ => false) none =
      .error "No AI providers are configured. Please set at least one API key in your environment variables." :=
  ⟨noProvidersConfigured_C4.1 AIProviderType String id (fun _ => false)
      (fun _ => Except.error "unreachable") (some .openai) (fun _ => rfl),
    noProvidersConfigured_C4.2 AIProviderType id (fun _ => false) none
      (fun _ => rfl)⟩

-- ===========================================================================
-- Theorems: annotation classifier (claim C5)
-- ===========================================================================

/-- A text element matching both an instruction pattern (`place`) and a
measurement pattern (`10cm`). -/
def placeTextEl : ExcalidrawElement :=
  { id := "t-place", type := .text, text := "place it 10cm from the wall" }

/-- A text element matching a measurement pattern but no instruction
pattern. -/
def unitTextEl : ExcalidrawElement :=
  { id := "t-unit", type := .text, text := "10cm tall" }

/-- Claim C5: for text shapes the role is decided by an ordered
first-match-wins cascade on the lower-cased text — instruction patterns
(0.9), then measurement patterns (0.85), then constraint patterns (0.8),
then length < 20 (reference, 0.6), else instruction 0.5; a digit+unit
text is measurement 0.85 provided no instruction pattern matches; a text
matching both groups ("place it 10cm from the wall") is instruction. -/
theorem classifyAnnotationRole_text_C5 :
    (∀ el : ExcalidrawElement, el.type = .text →
      (instructionTest (toLowerCase el.text) = true →
        classifyAnnotationRole el = ⟨.instruction, 0.9⟩)
      ∧ (instructionTest (toLowerCase el.text) = false →
          measurementTest (toLowerCase el.text) = true →
          classifyAnnotationRole el = ⟨.measurement, 0.85⟩)
      ∧ (instructionTest (toLowerCase el.text) = false →
          measurementTest (toLowerCase el.text) = false →
          constraintTest (toLowerCase el.text) = true →
          classifyAnnotationRole el = ⟨.constraint, 0.8⟩)
      ∧ (instructionTest (toLowerCase el.text) = false →
          measurementTest (toLowerCase el.text) = false →
          constraintTest (toLowerCase el.text) = false →
          (toLowerCase el.text).length < 20 →
          classifyAnnotationRole el = ⟨.reference, 0.6⟩)
      ∧ (instructionTest (toLowerCase el.text) = false →
          measurementTest (toLowerCase el.text) = false →
          constraintTest (toLowerCase el.text) = false →
          ¬ (toLowerCase el.text).length < 20 →
          classifyAnnotationRole el = ⟨.instruction, 0.5⟩)
      ∧ (digitUnitTest (toLowerCase el.text) = true →
          instructionTest (toLowerCase el.text) = false →
          classifyAnnotationRole el = ⟨.measurement, 0.85⟩))
  ∧ digitUnitTest (toLowerCase "place it 10cm from the wall") = true
  ∧ instructionTest (toLowerCase "place it 10cm from the wall") = true
  ∧ classifyAnnotationRole placeTextEl = ⟨.instruction, 0.9⟩ := by
  refine ⟨?_, by decide, by decide, rfl⟩
  intro el htype
  refine ⟨?_, ?_, ?_, ?_, ?_, ?_⟩
  · intro hi
    simp [classifyAnnotationRole, htype, hi]
  · intro hi hm
    simp [classifyAnnotationRole, htype, hi, hm]
  · intro hi hm hc
    simp [classifyAnnotationRole, htype, hi, hm, hc]
  · intro hi hm hc hl
    simp [classifyAnnotationRole, htype, hi, hm, hc, hl]
  · intro hi hm hc hl
    simp [classifyAnnotationRole, htype, hi, hm, hc, hl]
  · intro hd hi
    simp [classifyAnnotationRole, htype, hi, measurementTest, hd]

/-- Witness for C5: "10cm tall" (digit+unit, no instruction word) is
classified measurement with confidence 0.85. -/
theorem classifyAnnotationRole_text_C5_witness :
    classifyAnnotationRole unitTextEl = ⟨.measurement, 0.85⟩ :=
  (classifyAnnotationRole_text_C5.1 unitTextEl rfl).2.2.2.2.2
    (by decide) (by decide)

-- ===========================================================================
-- Theorems: spatial relation resolver (claim C6)
-- ===========================================================================

/-- Claim C6: for an arrow annotation whose terminal point
`(x + width, y + height)` lies strictly inside the image bounding box,
the relation is `points_to` with confidence 0.95, regardless of any
distance, and no later rule is consulted. -/
theorem determineSpatialRelation_arrow_C6
    (ann : SemanticAnnot) (imageMetadata : EnhancedImageMetadata)
    (annotationElement imageElement : ExcalidrawElement)
    (htype : ann.type = .arrow)
    (hx1 : imageElement.x < annotationElement.x + annotationElement.width)
    (hx2 : annotationElement.x + annotationElement.width <
      imageElement.x + imageElement.width)
    (hy1 : imageElement.y < annotationElement.y + annotationElement.height)
    (hy2 : annotationElement.y + annotationElement.height <
      imageElement.y + imageElement.height) :
    determineSpatialRelation ann imageMetadata annotationElement imageElement =
      (.points_to, 0.95) := by
  have hp : isPointInRect
      ⟨annotationElement.x + annotationElement.width,
       annotationElement.y + annotationElement.height⟩
      ⟨imageElement.x, imageElement.y, imageElement.width, imageElement.height⟩
      = true := by
    simp [isPointInRect]
    exact ⟨⟨⟨le_of_lt hx1, le_of_lt hx2⟩, le_of_lt hy1⟩, le_of_lt hy2⟩
  simp [determineSpatialRelation, htype, hp]

/-- Arrow annotation for the C6 witness. -/
def arrowAnnC6 : SemanticAnnot :=
  { id := "ar", type := .arrow, role := .placement_indicator,
    position := ⟨7.5, 7.5⟩, confidence := 0.9, metadata := ⟨"#000", 450⟩ }

/-- Arrow element for the C6 witness (terminal point (15, 15)). -/
def arrowElC6 : ExcalidrawElement :=
  { id := "ar", type := .arrow, x := 0, y := 0, width := 15, height := 15 }

/-- Image element for the C6 witness (box [10, 30] x [10, 30]). -/
def imageElC6 : ExcalidrawElement :=
  { id := "ie", type := .image, x := 10, y := 10, width := 20, height := 20 }

/-- Image metadata for the C6 witness. -/
def imageMetaC6 : EnhancedImageMetadata := { id := "im", excalidrawElementId := "ie" }

/-- Witness for C6: the terminal point (15, 15) lies strictly inside
[10, 30] x [10, 30], so the relation is points_to at 0.95. -/
theorem determineSpatialRelation_arrow_C6_witness :
    determineSpatialRelation arrowAnnC6 imageMetaC6 arrowElC6 imageElC6 =
      (.points_to, 0.95) :=
  determineSpatialRelation_arrow_C6 arrowAnnC6 imageMetaC6 arrowElC6 imageElC6
    rfl (by norm_num [arrowElC6, imageElC6]) (by norm_num [arrowElC6, imageElC6])
    (by norm_num [arrowElC6, imageElC6]) (by norm_num [arrowElC6, imageElC6])

-- ===========================================================================
-- Theorems: nearest-image search (claim C7)
-- ===========================================================================

/-- The candidate list of `findNearestImage`: for every image region whose
canvas element resolves, its id paired with the squared distance from `c`
to the element's centre (in image-list order). -/
def candidateDistances (c : Point) (allElements : List ExcalidrawElement)
    (images : List EnhancedImageMetadata) : List (String × ℚ) :=
  images.filterMap (fun image =>
    (allElements.find? (fun el => el.id = image.excalidrawElementId)).map
      (fun ie => (image.id, distSq c (elementCenter ie))))

/-- Loop step: an image whose canvas element is missing is skipped. -/
theorem nearestLoop_step_nofind (c : Point) (els : List ExcalidrawElement)
    (image : EnhancedImageMetadata) (rest : List EnhancedImageMetadata)
    (acc : Option (EnhancedImageMetadata × ℚ))
    (hfind : els.find? (fun el => el.id = image.excalidrawElementId) = none) :
    nearestLoop c els (image :: rest) acc = nearestLoop c els rest acc := by
  simp [nearestLoop, hfind]

/-- Loop step: a candidate at or beyond the cutoff is skipped. -/
theorem nearestLoop_step_far (c : Point) (els : List ExcalidrawElement)
    (image : EnhancedImageMetadata) (rest : List EnhancedImageMetadata)
    (acc : Option (EnhancedImageMetadata × ℚ)) (ie : ExcalidrawElement)
    (hfind : els.find? (fun el => el.id = image.excalidrawElementId) = some ie)
    (hfar : ¬ distSq c (elementCenter ie) < 250000) :
    nearestLoop c els (image :: rest) acc = nearestLoop c els rest acc := by
  simp [nearestLoop, hfind, hfar]

/-- Loop step: with no best yet, an in-range candidate becomes the best. -/
theorem nearestLoop_step_first (c : Point) (els : List ExcalidrawElement)
    (image : EnhancedImageMetadata) (rest : List EnhancedImageMetadata)
    (ie : ExcalidrawElement)
    (hfind : els.find? (fun el => el.id = image.excalidrawElementId) = some ie)
    (hnear : distSq c (elementCenter ie) < 250000) :
    nearestLoop c els (image :: rest) none =
      nearestLoop c els rest (some (image, distSq c (elementCenter ie))) := by
  simp [nearestLoop, hfind, hnear]

/-- Loop step: an in-range candidate strictly closer than the current
best replaces it. -/
theorem nearestLoop_step_closer (c : Point) (els : List ExcalidrawElement)
    (image : EnhancedImageMetadata) (rest : List EnhancedImageMetadata)
    (pr : EnhancedImageMetadata × ℚ) (ie : ExcalidrawElement)
    (hfind : els.find? (fun el => el.id = image.excalidrawElementId) = some ie)
    (hnear : distSq c (elementCenter ie) < 250000)
    (hcloser : distSq c (elementCenter ie) < pr.2) :
    nearestLoop c els (image :: rest) (some pr) =
      nearestLoop c els rest (some (image, distSq c (elementCenter ie))) := by
  simp [nearestLoop, hfind, hnear, hcloser]

/-- Loop step: a candidate no closer than the current best is ignored. -/
theorem nearestLoop_step_keep (c : Point) (els : List ExcalidrawElement)
    (image : EnhancedImageMetadata) (rest : List EnhancedImageMetadata)
    (pr : EnhancedImageMetadata × ℚ) (ie : ExcalidrawElement)
    (hfind : els.find? (fun el => el.id = image.excalidrawElementId) = some ie)
    (hkeep : ¬ distSq c (elementCenter ie) < pr.2) :
    nearestLoop c els (image :: rest) (some pr) =
      nearestLoop c els rest (some pr) := by
  simp [nearestLoop, hfind, hkeep]

/-- Candidate list, head unresolvable. -/
theorem candidateDistances_cons_none (c : Point) (els : List ExcalidrawElement)
    (image : EnhancedImageMetadata) (rest : List EnhancedImageMetadata)
    (hfind : els.find? (fun el => el.id = image.excalidrawElementId) = none) :
    candidateDistances c els (image :: rest) = candidateDistances c els rest := by
  simp [candidateDistances, List.filterMap_cons, hfind]

/-- Candidate list, head resolved. -/
theorem candidateDistances_cons_some (c : Point) (els : List ExcalidrawElement)
    (image : EnhancedImageMetadata) (rest : List EnhancedImageMetadata)
    (ie : ExcalidrawElement)
    (hfind : els.find? (fun el => el.id = image.excalidrawElementId) = some ie) :
    candidateDistances c els (image :: rest) =
      (image.id, distSq c (elementCenter ie)) :: candidateDistances c els rest := by
  simp [candidateDistances, List.filterMap_cons, hfind]

/-- When every candidate is at or beyond the cutoff, the loop leaves the
accumulator untouched. -/
theorem nearestLoop_all_far (c : Point) (els : List ExcalidrawElement) :
    ∀ (images : List EnhancedImageMetadata)
      (acc : Option (EnhancedImageMetadata × ℚ)),
      (∀ p ∈ candidateDistances c els images, 250000 ≤ p.2) →
      nearestLoop c els images acc = acc := by
  intro images
  induction images with
  | nil => intro acc _; rfl
  | cons image rest ih =>
    intro acc h
    cases hfind : els.find? (fun el => el.id = image.excalidrawElementId) with
    | none =>
      rw [nearestLoop_step_nofind c els image rest acc hfind]
      refine ih acc (fun p hp => h p ?_)
      rw [candidateDistances_cons_none c els image rest hfind]
      exact hp
    | some ie =>
      have hd : 250000 ≤ distSq c (elementCenter ie) := by
        refine h (image.id, distSq c (elementCenter ie)) ?_
        rw [candidateDistances_cons_some c els image rest ie hfind]
        exact List.mem_cons_self _ _
      rw [nearestLoop_step_far c els image rest acc ie hfind (not_lt.mpr hd)]
      refine ih acc (fun p hp => h p ?_)
      rw [candidateDistances_cons_some c els image rest ie hfind]
      exact List.mem_cons_of_mem _ hp

/-- Full characterisation of a successful loop run: the final best is an
in-range candidate (or the inherited accumulator) and is no farther than
any candidate and than the inherited accumulator. -/
theorem nearestLoop_some_spec (c : Point) (els : List ExcalidrawElement) :
    ∀ (images : List EnhancedImageMetadata)
      (acc : Option (EnhancedImageMetadata × ℚ))
      (img : EnhancedImageMetadata) (d : ℚ),
      nearestLoop c els images acc = some (img, d) →
      (∀ pr, acc = some pr → pr.2 < 250000) →
      d < 250000
      ∧ ((img.id, d) ∈ candidateDistances c els images ∨ acc = some (img, d))
      ∧ (∀ p ∈ candidateDistances c els images, d ≤ p.2)
      ∧ (∀ pr, acc = some pr → d ≤ pr.2) := by
  intro images
  induction images with
  | nil =>
    intro acc img d hloop hinv
    have hacc : acc = some (img, d) := hloop
    refine ⟨hinv _ hacc, Or.inr hacc, by simp [candidateDistances], ?_⟩
    intro pr hpr
    rw [hacc] at hpr
    rw [← Option.some.inj hpr]
  | cons image rest ih =>
    intro acc img d hloop hinv
    cases hfind : els.find? (fun el => el.id = image.excalidrawElementId) with
    | none =>
      rw [nearestLoop_step_nofind c els image rest acc hfind] at hloop
      rw [candidateDistances_cons_none c els image rest hfind]
      exact ih acc img d hloop hinv
    | some ie =>
      rw [candidateDistances_cons_some c els image rest ie hfind]
      by_cases hnear : distSq c (elementCenter ie) < 250000
      · cases acc with
        | none =>
          rw [nearestLoop_step_first c els image rest ie hfind hnear] at hloop
          obtain ⟨h1, h2, h3, h4⟩ := ih _ img d hloop
            (fun pr hpr => by rw [← Option.some.inj hpr]; exact hnear)
          refine ⟨h1, ?_, ?_, ?_⟩
          · rcases h2 with hmem | hacc
            · exact Or.inl (List.mem_cons_of_mem _ hmem)
            · have e := Option.some.inj hacc
              have e1 : image = img := congrArg Prod.fst e
              have e2 : distSq c (elementCenter ie) = d := congrArg Prod.snd e
              rw [← e1, ← e2]
              exact Or.inl (List.mem_cons_self _ _)
          · intro p hp
            rcases List.mem_cons.mp hp with rfl | hp'
            · exact h4 (image, distSq c (elementCenter ie)) rfl
            · exact h3 p hp'
          · intro pr hpr
            exact absurd hpr (by simp)
        | some pr0 =>
          by_cases hcl : distSq c (elementCenter ie) < pr0.2
          · rw [nearestLoop_step_closer c els image rest pr0 ie hfind hnear hcl]
              at hloop
            obtain ⟨h1, h2, h3, h4⟩ := ih _ img d hloop
              (fun pr hpr => by rw [← Option.some.inj hpr]; exact hnear)
            refine ⟨h1, ?_, ?_, ?_⟩
            · rcases h2 with hmem | hacc
              · exact Or.inl (List.mem_cons_of_mem _ hmem)
              · have e := Option.some.inj hacc
                have e1 : image = img := congrArg Prod.fst e
                have e2 : distSq c (elementCenter ie) = d := congrArg Prod.snd e
                rw [← e1, ← e2]
                exact Or.inl (List.mem_cons_self _ _)
            · intro p hp
              rcases List.mem_cons.mp hp with rfl | hp'
              · exact h4 (image, distSq c (elementCenter ie)) rfl
              · exact h3 p hp'
            · intro pr hpr
              rw [← Option.some.inj hpr]
              exact le_trans (h4 (image, distSq c (elementCenter ie)) rfl)
                (le_of_lt hcl)
          · rw [nearestLoop_step_keep c els image rest pr0 ie hfind hcl] at hloop
            obtain ⟨h1, h2, h3, h4⟩ := ih _ img d hloop hinv
            refine ⟨h1, ?_, ?_, h4⟩
            · rcases h2 with hmem | hacc
              · exact Or.inl (List.mem_cons_of_mem _ hmem)
              · exact Or.inr hacc
            · intro p hp
              rcases List.mem_cons.mp hp with rfl | hp'
              · exact le_trans (h4 pr0 rfl) (not_lt.mp hcl)
              · exact h3 p hp'
      · rw [nearestLoop_step_far c els image rest acc ie hfind hnear] at hloop
        obtain ⟨h1, h2, h3, h4⟩ := ih acc img d hloop hinv
        refine ⟨h1, ?_, ?_, h4⟩
        · rcases h2 with hmem | hacc
          · exact Or.inl (List.mem_cons_of_mem _ hmem)
          · exact Or.inr hacc
        · intro p hp
          rcases List.mem_cons.mp hp with rfl | hp'
          · exact le_of_lt (lt_of_lt_of_le h1 (not_lt.mp hnear))
          · exact h3 p hp'

/-- The loop never drops an already-present best. -/
theorem nearestLoop_preserves_some (c : Point) (els : List ExcalidrawElement) :
    ∀ (images : List EnhancedImageMetadata) (pr : EnhancedImageMetadata × ℚ),
      ∃ pr2, nearestLoop c els images (some pr) = some pr2 := by
  intro images
  induction images with
  | nil => intro pr; exact ⟨pr, rfl⟩
  | cons image rest ih =>
    intro pr
    cases hfind : els.find? (fun el => el.id = image.excalidrawElementId) with
    | none =>
      rw [nearestLoop_step_nofind c els image rest _ hfind]
      exact ih pr
    | some ie =>
      by_cases hnear : distSq c (elementCenter ie) < 250000
      · by_cases hcl : distSq c (elementCenter ie) < pr.2
        · rw [nearestLoop_step_closer c els image rest pr ie hfind hnear hcl]
          exact ih _
        · rw [nearestLoop_step_keep c els image rest pr ie hfind hcl]
          exact ih pr
      · rw [nearestLoop_step_far c els image rest _ ie hfind hnear]
        exact ih pr

/-- An in-range candidate guarantees the loop ends with a best. -/
theorem nearestLoop_some_of_inrange (c : Point) (els : List ExcalidrawElement) :
    ∀ (images : List EnhancedImageMetadata)
      (acc : Option (EnhancedImageMetadata × ℚ)),
      (∃ p ∈ candidateDistances c els images, p.2 < 250000) →
      ∃ pr2, nearestLoop c els images acc = some pr2 := by
  intro images
  induction images with
  | nil =>
    intro acc h
    simp [candidateDistances] at h
  | cons image rest ih =>
    intro acc h
    cases hfind : els.find? (fun el => el.id = image.excalidrawElementId) with
    | none =>
      rw [nearestLoop_step_nofind c els image rest acc hfind]
      rw [candidateDistances_cons_none c els image rest hfind] at h
      exact ih acc h
    | some ie =>
      by_cases hnear : distSq c (elementCenter ie) < 250000
      · cases acc with
        | none =>
          rw [nearestLoop_step_first c els image rest ie hfind hnear]
          exact nearestLoop_preserves_some c els rest _
        | some pr0 =>
          by_cases hcl : distSq c (elementCenter ie) < pr0.2
          · rw [nearestLoop_step_closer c els image rest pr0 ie hfind hnear hcl]
            exact nearestLoop_preserves_some c els rest _
          · rw [nearestLoop_step_keep c els image rest pr0 ie hfind hcl]
            exact nearestLoop_preserves_some c els rest _
      · rw [nearestLoop_step_far c els image rest acc ie hfind hnear]
        refine ih acc ?_
        obtain ⟨p, hp, hplt⟩ := h
        rw [candidateDistances_cons_some c els image rest ie hfind] at hp
        rcases List.mem_cons.mp hp with rfl | hp'
        · exact absurd hplt hnear
        · exact ⟨p, hp', hplt⟩

/-- Annotation element for the C7 scenario, centred at the origin. -/
def nearEl : ExcalidrawElement := { id := "a", type := .text }

/-- Image element at distance 100 from the origin. -/
def nearImgEl : ExcalidrawElement := { id := "i-near", type := .image, x := 100 }

/-- Image element at distance 600 from the origin. -/
def farImgEl : ExcalidrawElement := { id := "i-far", type := .image, x := 600 }

/-- Image metadata for the 100-unit element. -/
def imgNear : EnhancedImageMetadata := { id := "img-near", excalidrawElementId := "i-near" }

/-- Image metadata for the 600-unit element. -/
def imgFar : EnhancedImageMetadata := { id := "img-far", excalidrawElementId := "i-far" }

/-- Claim C7: the nearest-image search returns the image whose centroid
is at minimum Euclidean distance from the shape centroid provided that
minimum is under the 500-unit cutoff (squared: 250000), and returns
nothing when every candidate is at or beyond the cutoff; with candidates
at distances 100 and 600 the 100-unit image is bound, and with a single
candidate at 600 nothing is bound. -/
theorem findNearestImage_C7 :
    (∀ (element : ExcalidrawElement) (images : List EnhancedImageMetadata)
        (allElements : List ExcalidrawElement),
      ((∀ p ∈ candidateDistances (elementCenter element) allElements images,
          250000 ≤ p.2) →
        findNearestImage element images allElements = none)
      ∧ ((∃ p ∈ candidateDistances (elementCenter element) allElements images,
            p.2 < 250000) →
          ∃ imgId, findNearestImage element images allElements = some imgId)
      ∧ (∀ imgId, findNearestImage element images allElements = some imgId →
          ∃ d, (imgId, d) ∈ candidateDistances (elementCenter element) allElements images
            ∧ d < 250000
            ∧ ∀ p ∈ candidateDistances (elementCenter element) allElements images,
                d ≤ p.2))
  ∧ findNearestImage nearEl [imgNear, imgFar] [nearEl, nearImgEl, farImgEl] =
      some "img-near"
  ∧ findNearestImage nearEl [imgFar] [nearEl, farImgEl] = none := by
  refine ⟨?_, ?_, ?_⟩
  · intro element images allElements
    refine ⟨?_, ?_, ?_⟩
    · intro h
      rw [findNearestImage, nearestLoop_all_far _ _ images none h]
      rfl
    · intro h
      obtain ⟨pr2, hpr⟩ := nearestLoop_some_of_inrange
        (elementCenter element) allElements images none h
      exact ⟨pr2.1.id, by rw [findNearestImage, hpr]; rfl⟩
    · intro imgId hres
      rw [findNearestImage] at hres
      obtain ⟨⟨img, d⟩, hloop, hid⟩ := Option.map_eq_some'.mp hres
      obtain ⟨h1, h2, h3, _⟩ :=
        nearestLoop_some_spec (elementCenter element) allElements images none
          img d hloop (fun pr hpr => absurd hpr (by simp))
      rcases h2 with hmem | habs
      · exact ⟨d, hid ▸ hmem, h1, h3⟩
      · exact absurd habs (by simp)
  · have hf1 : List.find? (fun el => el.id = imgNear.excalidrawElementId)
        [nearEl, nearImgEl, farImgEl] = some nearImgEl := rfl
    have hf2 : List.find? (fun el => el.id = imgFar.excalidrawElementId)
        [nearEl, nearImgEl, farImgEl] = some farImgEl := rfl
    rw [findNearestImage,
      nearestLoop_step_first _ _ _ _ _ hf1
        (by norm_num [distSq, elementCenter, nearEl, nearImgEl]),
      nearestLoop_step_far _ _ _ _ _ _ hf2
        (by norm_num [distSq, elementCenter, nearEl, nearImgEl, farImgEl])]
    rfl
  · have hf3 : List.find? (fun el => el.id = imgFar.excalidrawElementId)
        [nearEl, farImgEl] = some farImgEl := rfl
    rw [findNearestImage,
      nearestLoop_step_far _ _ _ _ _ _ hf3
        (by norm_num [distSq, elementCenter, nearEl, farImgEl])]
    rfl

/-- Witness for C7: the cutoff clause applied to the single-600-unit
scenario yields no binding. -/
theorem findNearestImage_C7_witness :
    findNearestImage nearEl [imgFar] [nearEl, farImgEl] = none := by
  refine (findNearestImage_C7.1 nearEl [imgFar] [nearEl, farImgEl]).1 ?_
  intro p hp
  have hf3 : List.find? (fun el => el.id = imgFar.excalidrawElementId)
      [nearEl, farImgEl] = some farImgEl := rfl
  rw [candidateDistances_cons_some _ _ _ _ farImgEl hf3] at hp
  rcases List.mem_cons.mp hp with rfl | hp'
  · norm_num [distSq, elementCenter, nearEl, farImgEl]
  · simp [candidateDistances] at hp'

-- ===========================================================================
-- Theorems: prompt confidence scorer (claim C8)
-- ===========================================================================

/-- The scoring formula exactly as the specification words it: a 0.5 base
plus fixed increments (0.2 for description longer than 10 characters, 0.1
for any annotations present, 0.1 for any product image carrying product
metadata, 0.05 for each present preset), clamped to at most 1. Stated
independently of `calculateConfidence` for comparison. -/
def specConfidence (input : PromptBuilderInput) : ℚ :=
  mathMin
    (0.5 + (if 10 < input.userDescription.length then (0.2 : ℚ) else 0)
      + (if 0 < (input.annotations.getD []).length then (0.1 : ℚ) else 0)
      + (if (input.productImages.getD []).any (fun p => p.productMetadata.isSome)
          then (0.1 : ℚ) else 0)
      + (if input.lightingPreset.isSome then (0.05 : ℚ) else 0)
      + (if input.stylePreset.isSome then (0.05 : ℚ) else 0))
    1

/-- `mathMin` never exceeds its right argument. -/
theorem mathMin_le_right (a b : ℚ) : mathMin a b ≤ b := by
  unfold mathMin
  split_ifs with h
  · exact h
  · exact le_refl b

/-- A sample annotation for the C8 input. -/
def sampleAnnC8 : SemanticAnnot :=
  { id := "a", type := .text, role := .instruction, content := some "x",
    position := ⟨0, 0⟩, confidence := 0.9, metadata := ⟨"", 0⟩ }

/-- A sample product image carrying product metadata, for the C8 input. -/
def sampleImgC8 : EnhancedImageMetadata :=
  { id := "p", excalidrawElementId := "pe", productMetadata := some {} }

/-- An input carrying all five contributions. -/
def fullInputC8 : PromptBuilderInput :=
  { userDescription := "a lovely modern sofa",
    annotations := some [sampleAnnC8],
    productImages := some [sampleImgC8],
    lightingPreset := some {},
    stylePreset := some {} }

/-- Claim C8: the confidence score equals the 0.5 base plus exactly the
five fixed increments, clamped to never exceed 1.0; an input with all
five contributions reports exactly 1.0. -/
theorem calculateConfidence_C8 :
    (∀ (input : PromptBuilderInput) (vars : PromptVariables),
      calculateConfidence input vars = specConfidence input)
  ∧ (∀ (input : PromptBuilderInput) (vars : PromptVariables),
      calculateConfidence input vars ≤ 1)
  ∧ calculateConfidence fullInputC8 [] = 1 := by
  have heq : ∀ (input : PromptBuilderInput) (vars : PromptVariables),
      calculateConfidence input vars = specConfidence input := by
    intro input vars
    obtain ⟨desc, anns, prods, light, style⟩ := input
    cases anns <;> cases prods <;> cases light <;> cases style <;>
      simp [calculateConfidence, specConfidence] <;>
      split_ifs <;> norm_num
  refine ⟨heq, ?_, ?_⟩
  · intro input vars
    rw [heq input vars]
    exact mathMin_le_right _ 1
  · norm_num [calculateConfidence, fullInputC8, mathMin, sampleAnnC8, sampleImgC8,
      show ("a lovely modern sofa".length = 20) from rfl]

-- ===========================================================================
-- Theorems: round trip (claim C9)
-- ===========================================================================

/-- A text shape whose content is "centered under light". -/
def c9Element : ExcalidrawElement :=
  { id := "t1", type := .text, width := 120, height := 20,
    text := "centered under light" }

/-- Claim C9: extracting semantic annotations from an element list holding
the text shape "centered under light" and rendering them back to text
yields a string containing the literal substring
`User instruction: "centered under light"`. -/
theorem roundTrip_C9 :
    occursIn ("User instruction: \"centered under light\"").data
      (annotationsToText (extractSemanticAnnotations [c9Element] []).1
        (extractSemanticAnnotations [c9Element] []).2).data = true := rfl

-- ===========================================================================
-- Theorems: unbound-annotation relation scan (claim C10)
-- ===========================================================================

/-- `determineSpatialRelation` only ever returns one of eight literal
outcomes. -/
theorem determineSpatialRelation_mem (ann : SemanticAnnot)
    (im : EnhancedImageMetadata) (ae ie : ExcalidrawElement) :
    determineSpatialRelation ann im ae ie ∈
      ([(.points_to, 0.95), (.encircles, 0.9), (.overlaps, 0.8),
        (.right_of, 0.7), (.below, 0.7), (.left_of, 0.7), (.above, 0.7),
        (.near, 0.5)] : List (SpatialRelation × ℚ)) := by
  simp only [determineSpatialRelation]
  split_ifs <;> simp

/-- The only outcome of `determineSpatialRelation` with confidence not
above 0.5 is `near` at exactly 0.5: any outcome above 0.5 has confidence
at least 0.7 and is not `near`. -/
theorem determineSpatialRelation_conf (ann : SemanticAnnot)
    (im : EnhancedImageMetadata) (ae ie : ExcalidrawElement) :
    0.5 < (determineSpatialRelation ann im ae ie).2 →
    0.7 ≤ (determineSpatialRelation ann im ae ie).2 ∧
      (determineSpatialRelation ann im ae ie).1 ≠ .near := by
  intro h
  have hm := determineSpatialRelation_mem ann im ae ie
  simp only [List.mem_cons, List.not_mem_nil, or_false] at hm
  rcases hm with hm | hm | hm | hm | hm | hm | hm | hm <;>
    rw [hm] at h ⊢ <;>
    first
      | exact ⟨by norm_num, by decide⟩
      | exact absurd h (by norm_num)

/-- Claim C10: every relation produced by the brute-force scan over
unbound annotations has confidence at least 0.7 and is never `near`,
because the scan keeps a relation only when its confidence exceeds 0.5
and the only sub-0.7 outcome of `determineSpatialRelation` is
(`near`, 0.5). -/
theorem analyzeAnnotationRelations_unbound_C10
    (annotations : List SemanticAnnot) (images : List EnhancedImageMetadata)
    (elements : List ExcalidrawElement)
    (hunbound : annotations.all (fun a => a.targetImageId == none) = true) :
    (analyzeAnnotationRelations annotations images elements).all
      (fun r => decide ((0.7 : ℚ) ≤ r.confidence) && decide (r.relation ≠ .near)) =
      true := by
  rw [List.all_eq_true] at hunbound ⊢
  intro r hr
  rw [analyzeAnnotationRelations] at hr
  obtain ⟨a, ha, hra⟩ := List.mem_flatMap.mp hr
  have hnone : a.targetImageId = none := by simpa using hunbound a ha
  rw [relationsForAnnot, hnone] at hra
  dsimp only at hra
  cases hfind : elements.find? (fun el => el.id = a.id) with
  | none => rw [hfind] at hra; simp at hra
  | some ae =>
    rw [hfind] at hra
    dsimp only at hra
    obtain ⟨image, himg, hmk⟩ := List.mem_filterMap.mp hra
    cases hfind2 : elements.find? (fun el => el.id = image.excalidrawElementId) with
    | none => rw [hfind2] at hmk; simp at hmk
    | some ie =>
      rw [hfind2] at hmk
      dsimp only at hmk
      by_cases hc : (0.5 : ℚ) < (determineSpatialRelation a image ae ie).2
      · rw [if_pos hc] at hmk
        obtain ⟨h1, h2⟩ := determineSpatialRelation_conf a image ae ie hc
        rw [← Option.some.inj hmk]
        simp [h1, h2]
      · rw [if_neg hc] at hmk
        simp at hmk

/-- Unbound annotation for the C10 witness. -/
def unboundAnnC10 : SemanticAnnot :=
  { id := "tx", type := .text, role := .reference, position := ⟨0, 0⟩,
    confidence := 0.6, metadata := ⟨"", 0⟩ }

/-- Canvas element of the C10 witness annotation. -/
def unboundElC10 : ExcalidrawElement := { id := "tx", type := .text }

/-- Witness for C10: a concrete unbound annotation next to a concrete
image; every relation the scan produces for it is at least 0.7 and not
`near`. -/
theorem analyzeAnnotationRelations_unbound_C10_witness :
    ([unboundAnnC10].all (fun a => a.targetImageId == none) = true)
  ∧ ((analyzeAnnotationRelations [unboundAnnC10] [imageMetaC6]
        [unboundElC10, imageElC6]).all
      (fun r => decide ((0.7 : ℚ) ≤ r.confidence) && decide (r.relation ≠ .near)) =
      true) :=
  ⟨rfl, analyzeAnnotationRelations_unbound_C10 [unboundAnnC10] [imageMetaC6]
    [unboundElC10, imageElC6] rfl⟩
